import Mathlib

/-!
Verification of the appointment-scheduling core of the dental_system_API
repository: a shallow embedding of the booking conflict/availability engine
and the booking status machine (appointments/models.py,
appointments/serializers.py, appointments/views.py, etc/validators.py),
with theorems settling the spec's claims about it.

Timestamps are modelled as natural-number minute counts since an epoch
whose day 0 is a Monday,
matching Python's `weekday()` convention (Monday = 0, ..., Friday = 4).
A timestamp `ts` has calendar date `ts / 1440`, hour `ts % 1440 / 60`.
The persistent store is a list of bookings; each operation returns
`Except BookingError (List Booking)`: an `error` result models the Django
code path that returns a failure response without saving, so the store is
unchanged by construction on failure.
-/

namespace DentalSystem

/-- Booking status values from `BOOKING_STATUS_CHOICES` (etc/choices.py),
used by `Booking.status` with default `pending`. -/
inductive BookingStatus where
  | pending
  | confirmed
  | completed
  | cancelled
deriving DecidableEq

/-- Actor roles relevant to booking mutation (`CustomUser.type`); `staff`
covers `admin` and `receptionist`, which the update serializer treats
identically (the fall-through branch). -/
inductive Role where
  | patient
  | doctor
  | staff
deriving DecidableEq

/-- Calendar date of a timestamp, as an epoch-day index
(Python `datetime.date()`). -/
def dateOf (ts : Nat) : Nat := ts / 1440

/-- Hour-of-day of a timestamp (Python `datetime.hour`). -/
def hourOf (ts : Nat) : Nat := ts % 1440 / 60

/-- Weekday of an epoch-day index; day 0 is a Monday, so Friday is 4,
matching Python `date.weekday()`. -/
def weekdayOfDate (d : Nat) : Nat := d % 7

/-- Weekday of a timestamp (Python `datetime.weekday()`). -/
def weekdayOf (ts : Nat) : Nat := weekdayOfDate (dateOf ts)

/-- The `Booking` model (appointments/models.py): patient and doctor are
foreign keys to `CustomUser` (opaque ids here), plus the scheduled
datetime, status, and the two free-text fields. -/
structure Booking where
  id : Nat
  patient : Nat
  doctor : Nat
  appointment_datetime : Nat
  status : BookingStatus
  reason : String
  notes : String
deriving DecidableEq

/-- The distinct failure outcomes of the booking endpoints: the serializer
validation errors of `BookingCreateSerializer` / `BookingUpdateSerializer`
and the `bad_request` branches of the cancel/confirm/complete actions.
`cleanFailed` models the `ValidationError` raised by `Booking.clean()`
inside `save()` (which aborts before the row is written). -/
inductive BookingError where
  | pastDate
  | outsideHours
  | closedDay
  | patientDayConflict
  | doctorSlotConflict
  | notFound
  | alreadyCancelled
  | cannotCancelCompleted
  | cannotConfirm
  | cannotCompleteCancelled
  | alreadyCompleted
  | cannotModifyCancelled
  | cannotModifyCompleted
  | patientOnlyPending
  | cleanFailed
deriving DecidableEq

/-- The query `Booking.objects.filter(patient=..., appointment_datetime__date=...)
.exclude(status='cancelled')` used by both `BookingCreateSerializer.validate`
and `Booking.clean`. -/
def patientBookingsOnDate (st : List Booking) (p : Nat) (d : Nat) : List Booking :=
  st.filter (fun b =>
    b.patient == p && dateOf b.appointment_datetime == d && !(b.status == .cancelled))

/-- The query in `BookingCreateSerializer.validate` for the doctor
slot check: bookings of the doctor with `appointment_datetime` in
`[start - 30, start + 30)` minutes, excluding cancelled ones. -/
def doctorConflicts (st : List Booking) (doc : Nat) (start : Nat) : List Booking :=
  st.filter (fun b =>
    b.doctor == doc
      && decide (start - 30 ≤ b.appointment_datetime)
      && decide (b.appointment_datetime < start + 30)
      && !(b.status == .cancelled))

/-- `conflicting_bookings.exists()` in `BookingCreateSerializer.validate`. -/
def hasDoctorSlotConflict (st : List Booking) (doc : Nat) (start : Nat) : Bool :=
  !(doctorConflicts st doc start).isEmpty

/-- `BookingCreateSerializer` (appointments/serializers.py). Field
validation order: `validate_future_date` (etc/validators.py: fails iff the
value is ≤ now), the working-hours check (`hour < 8 or hour >= 20`), the
Friday check (`weekday() == 4`); then `validate` runs the patient-day
check and the doctor 30-minute-window check; then `create` forces
`status = 'pending'`.  `reqStatus` is the status value the caller may have
supplied: it is dropped because `Meta.fields` excludes `status` and
`create` overwrites it.  The `Booking.clean()` call inside `save()`
re-checks the same patient-day predicate and thus never fails on this
path. -/
def createBooking (st : List Booking) (now : Nat) (newId p doc : Nat)
    (dt : Nat) (reqStatus : BookingStatus) (reason notes : String) :
    Except BookingError (List Booking) :=
  if dt ≤ now then .error .pastDate
  else if hourOf dt < 8 || 20 ≤ hourOf dt then .error .outsideHours
  else if weekdayOf dt == 4 then .error .closedDay
  else if !(patientBookingsOnDate st p (dateOf dt)).isEmpty then .error .patientDayConflict
  else if hasDoctorSlotConflict st doc dt then .error .doctorSlotConflict
  else .ok ({ id := newId, patient := p, doctor := doc, appointment_datetime := dt,
              status := .pending, reason := reason, notes := notes } :: st)

/-- `get_object_or_404` on the booking id. -/
def findBooking (st : List Booking) (bid : Nat) : Option Booking :=
  st.find? (fun b => b.id == bid)

/-- The bookings that make `Booking.clean()` raise when saving `b`: same
patient, same calendar date, not cancelled, excluding `b` itself by pk. -/
def cleanConflicts (st : List Booking) (b : Booking) : List Booking :=
  st.filter (fun e =>
    e.patient == b.patient
      && dateOf e.appointment_datetime == dateOf b.appointment_datetime
      && !(e.status == .cancelled)
      && !(e.id == b.id))

/-- `Booking.clean()` passes iff no conflicting sibling exists. -/
def cleanOk (st : List Booking) (b : Booking) : Bool :=
  (cleanConflicts st b).isEmpty

/-- `booking.save()`: runs `clean()` (raising aborts the write), then
replaces the stored row with the new values. -/
def saveBooking (st : List Booking) (b : Booking) : Except BookingError (List Booking) :=
  if cleanOk st b then .ok (st.map (fun e => if e.id == b.id then b else e))
  else .error .cleanFailed

/-- Whether the cancel serializer's optional `reason` is truthy:
`serializer.validated_data.get('reason')` is falsy when the key is absent
or blank. -/
def reasonTruthy : Option String → Bool
  | none => false
  | some r => !(r == "")

/-- The message prefix written into `notes` by the cancel action. -/
def cancelNotesLabel : String := "سبب الإلغاء: "

/-- `BookingViewSet.cancel` (appointments/views.py): rejects already
cancelled and completed bookings; otherwise sets status to `cancelled`,
and when a non-blank reason is supplied assigns
`notes = "سبب الإلغاء: " + reason` (a plain assignment), then saves. -/
def cancelBooking (st : List Booking) (bid : Nat) (reason : Option String) :
    Except BookingError (List Booking) :=
  match findBooking st bid with
  | none => .error .notFound
  | some b =>
    if b.status == .cancelled then .error .alreadyCancelled
    else if b.status == .completed then .error .cannotCancelCompleted
    else
      let b1 : Booking := { b with status := .cancelled }
      let b2 : Booking :=
        if reasonTruthy reason then
          { b1 with notes := cancelNotesLabel ++ reason.getD "" }
        else b1
      saveBooking st b2

/-- `BookingViewSet.confirm`: staff-only; rejects any booking whose status
is not `pending`, otherwise sets status to `confirmed` and saves. -/
def confirmBooking (st : List Booking) (bid : Nat) :
    Except BookingError (List Booking) :=
  match findBooking st bid with
  | none => .error .notFound
  | some b =>
    if !(b.status == .pending) then .error .cannotConfirm
    else saveBooking st { b with status := .confirmed }

/-- `BookingViewSet.complete`: staff-only; rejects cancelled and already
completed bookings, otherwise sets status to `completed` and saves. -/
def completeBooking (st : List Booking) (bid : Nat) :
    Except BookingError (List Booking) :=
  match findBooking st bid with
  | none => .error .notFound
  | some b =>
    if b.status == .cancelled then .error .cannotCompleteCancelled
    else if b.status == .completed then .error .alreadyCompleted
    else saveBooking st { b with status := .completed }

/-- The field payload accepted by `BookingUpdateSerializer`: only these
four fields are writable (`Meta.fields`); patient and doctor are not
updatable through this serializer at all. `none` means the field was not
supplied (partial update). -/
structure UpdateData where
  appointment_datetime : Option Nat
  status : Option BookingStatus
  reason : Option String
  notes : Option String
deriving DecidableEq

/-- `BookingUpdateSerializer.validate_appointment_datetime`: the same
future / working-hours / Friday checks as on create. -/
def validAppointmentDatetime (now dt : Nat) : Option BookingError :=
  if dt ≤ now then some .pastDate
  else if hourOf dt < 8 || 20 ≤ hourOf dt then some .outsideHours
  else if weekdayOf dt == 4 then some .closedDay
  else none

/-- `BookingUpdateSerializer.update`: role dispatch. A patient may only
touch `reason` and only while the booking is `pending`; a doctor's update
writes status and notes (each defaulting to the current value); staff
(the fall-through `super().update`) writes every supplied field. -/
def applyRoleUpdate (st : List Booking) (role : Role) (b : Booking) (data : UpdateData) :
    Except BookingError (List Booking) :=
  match role with
  | .patient =>
    if !(b.status == .pending) then .error .patientOnlyPending
    else saveBooking st { b with reason := data.reason.getD b.reason }
  | .doctor =>
    saveBooking st { b with status := data.status.getD b.status,
                            notes := data.notes.getD b.notes }
  | .staff =>
    saveBooking st { b with
      appointment_datetime := data.appointment_datetime.getD b.appointment_datetime,
      status := data.status.getD b.status,
      reason := data.reason.getD b.reason,
      notes := data.notes.getD b.notes }

/-- `BookingUpdateSerializer.validate_status` (runs only when a status
value is supplied) followed by the role dispatch: a terminal instance
rejects any supplied status value. -/
def updateValidated (st : List Booking) (role : Role) (b : Booking) (data : UpdateData) :
    Except BookingError (List Booking) :=
  match data.status with
  | some _ =>
    if b.status == .cancelled then .error .cannotModifyCancelled
    else if b.status == .completed then .error .cannotModifyCompleted
    else applyRoleUpdate st role b data
  | none => applyRoleUpdate st role b data

/-- The update/partial-update endpoint: field validators run only on the
supplied fields, then the role-dispatched write; the row is found by pk
first. -/
def updateBooking (st : List Booking) (role : Role) (bid : Nat) (data : UpdateData)
    (now : Nat) : Except BookingError (List Booking) :=
  match findBooking st bid with
  | none => .error .notFound
  | some b =>
    match data.appointment_datetime with
    | some dt =>
      match validAppointmentDatetime now dt with
      | some e => .error e
      | none => updateValidated st role b data
    | none => updateValidated st role b data

/-- Existing non-cancelled bookings of a doctor on a date, projected to
their datetimes: `Booking.objects.filter(doctor_id=..., appointment_datetime__date=...)
.exclude(status='cancelled').values_list('appointment_datetime', flat=True)`
in `BookingViewSet.available_slots`. -/
def doctorBookedTimesOnDate (st : List Booking) (doc : Nat) (d : Nat) : List Nat :=
  (st.filter (fun b =>
    b.doctor == doc && dateOf b.appointment_datetime == d && !(b.status == .cancelled))).map
    (fun b => b.appointment_datetime)

/-- The candidate slot times generated by the nested loops
`for hour in range(8, 20): for minute in [0, 30]:` on date `d`. -/
def slotCandidates (d : Nat) : List Nat :=
  (List.range 12).flatMap (fun i => [d * 1440 + (8 + i) * 60, d * 1440 + (8 + i) * 60 + 30])

/-- `BookingViewSet.available_slots`: rejects past dates with an error
response; returns an empty list (success) on Fridays; otherwise keeps the
candidates that do not exactly match an existing booking's datetime and
are strictly after now (the code applies the now-filter on every date,
not just today). -/
def availableSlots (st : List Booking) (now : Nat) (doc : Nat) (d : Nat) :
    Except BookingError (List Nat) :=
  if d < dateOf now then .error .pastDate
  else if weekdayOfDate d == 4 then .ok []
  else
    let existing := doctorBookedTimesOnDate st doc d
    .ok ((slotCandidates d).filter (fun t => !(existing.contains t) && decide (now < t)))

/-- The full working day of slots: 24 entries from 08:00, 30 minutes
apart, in ascending order. -/
def fullDaySlots (d : Nat) : List Nat :=
  (List.range 24).map (fun i => d * 1440 + 480 + 30 * i)

/-- Invariant I1 / P1 as a predicate on a store: for every patient and
calendar date, at most one non-cancelled booking. -/
def patientDayUnique (st : List Booking) : Prop :=
  ∀ p d, (patientBookingsOnDate st p d).length ≤ 1

/-- Stores reachable from the empty store by successful create calls. -/
inductive CreateReachable : List Booking → Prop
  | init : CreateReachable []
  | step {st st' : List Booking} (now : Nat) (newId p doc : Nat) (dt : Nat)
      (reqStatus : BookingStatus) (reason notes : String) :
      CreateReachable st →
      createBooking st now newId p doc dt reqStatus reason notes = .ok st' →
      CreateReachable st'

/-- Elimination form of a successful create: all validation stages passed
(in particular the patient-day query was empty) and the new store is the
fresh pending booking consed onto the old store. -/
theorem createBooking_ok_elim {st : List Booking} {now : Nat} {newId p doc : Nat}
    {dt : Nat} {rs : BookingStatus} {r n : String} {st' : List Booking}
    (h : createBooking st now newId p doc dt rs r n = Except.ok st') :
    patientBookingsOnDate st p (dateOf dt) = [] ∧
    st' = { id := newId, patient := p, doctor := doc, appointment_datetime := dt,
            status := BookingStatus.pending, reason := r, notes := n } :: st := by
  unfold createBooking at h
  split_ifs at h with h1 h2 h3 h4 h5 <;> try exact Except.noConfusion h
  refine ⟨?_, (Except.ok.inj h).symm⟩
  by_contra hne
  exact h4 (by simp [List.isEmpty_eq_false.mpr hne])

/-- Characterization of a successful save: the model-level clean check
passed and the row with the booking's pk was replaced. -/
theorem saveBooking_ok_iff {st : List Booking} {b : Booking} {st' : List Booking} :
    saveBooking st b = Except.ok st' ↔
      (cleanOk st b = true ∧ st' = st.map (fun e => if e.id == b.id then b else e)) := by
  unfold saveBooking
  split_ifs with hc
  · constructor
    · intro h
      exact ⟨hc, (Except.ok.inj h).symm⟩
    · rintro ⟨-, rfl⟩
      rfl
  · constructor
    · intro h
      exact absurd h (by simp)
    · rintro ⟨htrue, -⟩
      exact absurd htrue hc

/-- The clean check only looks at a booking's patient, datetime and pk. -/
theorem cleanOk_congr (st : List Booking) (a b : Booking)
    (hp : a.patient = b.patient) (hd : a.appointment_datetime = b.appointment_datetime)
    (hid : a.id = b.id) : cleanOk st a = cleanOk st b := by
  unfold cleanOk cleanConflicts
  simp only [hp, hd, hid]

/-- C9: every successful create stores a booking whose status is `pending`,
whatever status value the caller supplied (the serializer's field
whitelist drops `reqStatus` and `create` overwrites the status). -/
theorem c9_create_forces_pending (st : List Booking) (now : Nat) (newId p doc : Nat)
    (dt : Nat) (reqStatus : BookingStatus) (r n : String) (st' : List Booking)
    (h : createBooking st now newId p doc dt reqStatus r n = Except.ok st') :
    ∃ nb : Booking, st' = nb :: st ∧ nb.status = BookingStatus.pending :=
  ⟨_, (createBooking_ok_elim h).2, rfl⟩

set_option maxRecDepth 4000 in
/-- Witness for C9: a concrete create that supplies status `confirmed`
still stores a `pending` booking. -/
theorem c9_witness :
    ∃ nb : Booking,
      ([{ id := 2, patient := 10, doctor := 20, appointment_datetime := 700 * 1440 + 615,
          status := BookingStatus.pending, reason := "x", notes := "y" }] : List Booking)
        = nb :: ([] : List Booking) ∧ nb.status = BookingStatus.pending :=
  c9_create_forces_pending [] (700 * 1440) 2 10 20 (700 * 1440 + 615)
    BookingStatus.confirmed "x" "y" _ rfl

/-- C8: once the future-date check passes, create fails with
`OutsideHours` exactly when the timestamp's hour is outside the business
window `workStartHour (8) ≤ hour < workEndHour (20)`; equivalently, every
in-window hour passes this check. -/
theorem c8_business_hours (st : List Booking) (now : Nat) (newId p doc : Nat)
    (dt : Nat) (rs : BookingStatus) (r n : String) (hfut : now < dt) :
    createBooking st now newId p doc dt rs r n = Except.error BookingError.outsideHours
      ↔ ¬(8 ≤ hourOf dt ∧ hourOf dt < 20) := by
  unfold createBooking
  rw [if_neg (Nat.not_le.mpr hfut)]
  by_cases hb : hourOf dt < 8 ∨ 20 ≤ hourOf dt
  · rw [if_pos (show (decide (hourOf dt < 8) || decide (20 ≤ hourOf dt)) = true by
      rcases hb with hb | hb
      · rw [decide_eq_true hb]
        rfl
      · rw [decide_eq_true hb, Bool.or_true])]
    simp only [true_iff]
    omega
  · rw [if_neg (show ¬(decide (hourOf dt < 8) || decide (20 ≤ hourOf dt)) = true by
      intro hcond
      have hP : ¬(hourOf dt < 8) := fun hh => hb (Or.inl hh)
      have hQ : ¬(20 ≤ hourOf dt) := fun hh => hb (Or.inr hh)
      rw [decide_eq_false hP, decide_eq_false hQ] at hcond
      simp at hcond)]
    constructor
    · intro hcontra
      split_ifs at hcontra <;> simp at hcontra
    · intro hnot
      exact absurd (by omega : 8 ≤ hourOf dt ∧ hourOf dt < 20) hnot

/-- Witness for C8, Scenario E: a booking at 07:30 on a working day in the
future fails with `OutsideHours`. -/
theorem c8_witness :
    createBooking [] (700 * 1440) 2 10 20 (700 * 1440 + 450) BookingStatus.pending "" ""
      = Except.error BookingError.outsideHours :=
  (c8_business_hours [] (700 * 1440) 2 10 20 (700 * 1440 + 450) BookingStatus.pending "" ""
    (by decide)).mpr (by decide)

/-- C7: a date strictly before today is rejected with an error response
(`PastDate`), not an empty list; a non-past date falling on Friday
succeeds with an empty slot list and no error. -/
theorem c7_past_vs_friday (st : List Booking) (now : Nat) (doc d : Nat) :
    (d < dateOf now → availableSlots st now doc d = Except.error BookingError.pastDate) ∧
    (¬ d < dateOf now → weekdayOfDate d = 4 → availableSlots st now doc d = Except.ok []) := by
  constructor
  · intro hpast
    unfold availableSlots
    rw [if_pos hpast]
  · intro hnp hfri
    unfold availableSlots
    rw [if_neg hnp, if_pos (by simpa using hfri)]

/-- Witness for C7: day 699 is strictly before the clock's day 700 and
errors; day 704 is a Friday (704 mod 7 = 4) in the future and returns an
empty success. -/
theorem c7_witness :
    availableSlots [] (700 * 1440 + 600) 20 699 = Except.error BookingError.pastDate ∧
    availableSlots [] (700 * 1440 + 600) 20 704 = Except.ok [] :=
  ⟨(c7_past_vs_friday [] (700 * 1440 + 600) 20 699).1 (by decide),
   (c7_past_vs_friday [] (700 * 1440 + 600) 20 704).2 (by decide) (by decide)⟩

/-- The empty store trivially satisfies patient-day uniqueness. -/
theorem patientDayUnique_nil : patientDayUnique [] := by
  intro p d
  simp [patientBookingsOnDate]

/-- Filtering a cons for the patient-day query. -/
theorem patientBookingsOnDate_cons (b : Booking) (st : List Booking) (p d : Nat) :
    patientBookingsOnDate (b :: st) p d =
      if (b.patient == p && (dateOf b.appointment_datetime == d)
            && !(b.status == BookingStatus.cancelled)) = true
      then b :: patientBookingsOnDate st p d else patientBookingsOnDate st p d := by
  unfold patientBookingsOnDate
  rw [List.filter_cons]

/-- A successful create preserves patient-day uniqueness: the serializer
only accepts a proposal when the patient has no non-cancelled booking on
the proposal's calendar date. -/
theorem createBooking_preserves_patientDayUnique {st : List Booking} {now : Nat}
    {newId p doc : Nat} {dt : Nat} {rs : BookingStatus} {r n : String}
    {st' : List Booking} (hU : patientDayUnique st)
    (h : createBooking st now newId p doc dt rs r n = Except.ok st') :
    patientDayUnique st' := by
  obtain ⟨hempty, rfl⟩ := createBooking_ok_elim h
  intro p' d'
  rw [patientBookingsOnDate_cons]
  dsimp only
  split
  case isTrue hmatch =>
    simp only [Bool.and_eq_true, beq_iff_eq] at hmatch
    obtain ⟨⟨hp, hd⟩, -⟩ := hmatch
    subst hp
    subst hd
    rw [hempty]
    simp
  case isFalse hmatch =>
    exact hU p' d'

/-- Every store reachable from empty by successful creates satisfies
patient-day uniqueness. -/
theorem reachable_patientDayUnique {st : List Booking} (h : CreateReachable st) :
    patientDayUnique st := by
  induction h with
  | init => exact patientDayUnique_nil
  | step now newId p doc dt rs r n hre heq ih =>
    exact createBooking_preserves_patientDayUnique ih heq

/-- The working-hours condition evaluates to false for an in-window hour. -/
theorem hours_cond_eq_false {dt : Nat} (hh1 : 8 ≤ hourOf dt) (hh2 : hourOf dt < 20) :
    (decide (hourOf dt < 8) || decide (20 ≤ hourOf dt)) = false := by
  rw [decide_eq_false (Nat.not_lt.mpr hh1), decide_eq_false (Nat.not_le.mpr hh2)]
  rfl

/-- A create for a patient who already holds a non-cancelled booking on
the proposal's date fails with the patient-day conflict error (assuming
the earlier datetime validation stages pass) and, being an error, writes
nothing. -/
theorem createBooking_patientDayConflict (st : List Booking) (now : Nat)
    (newId p doc : Nat) (dt : Nat) (rs : BookingStatus) (r n : String)
    (hfut : now < dt) (hh1 : 8 ≤ hourOf dt) (hh2 : hourOf dt < 20) (hwd : weekdayOf dt ≠ 4)
    (hocc : ∃ b ∈ st, b.patient = p ∧ dateOf b.appointment_datetime = dateOf dt ∧
      b.status ≠ BookingStatus.cancelled) :
    createBooking st now newId p doc dt rs r n = Except.error BookingError.patientDayConflict := by
  obtain ⟨b, hbmem, hbp, hbd, hbs⟩ := hocc
  have hmem : b ∈ patientBookingsOnDate st p (dateOf dt) := by
    unfold patientBookingsOnDate
    refine List.mem_filter.mpr ⟨hbmem, ?_⟩
    simp [hbp, hbd, hbs]
  have hne : patientBookingsOnDate st p (dateOf dt) ≠ [] := List.ne_nil_of_mem hmem
  unfold createBooking
  rw [if_neg (Nat.not_le.mpr hfut)]
  rw [if_neg (show ¬(decide (hourOf dt < 8) || decide (20 ≤ hourOf dt)) = true by
    rw [hours_cond_eq_false hh1 hh2]
    exact Bool.false_ne_true)]
  rw [if_neg (show ¬((weekdayOf dt == 4) = true) from fun hc => hwd (eq_of_beq hc))]
  rw [if_pos (show (!(patientBookingsOnDate st p (dateOf dt)).isEmpty) = true by
    rw [List.isEmpty_eq_false.mpr hne]
    rfl)]

/-- C1: every store reachable by successful create calls has at most one
non-cancelled booking per patient per calendar date, and a create for a
patient who already holds a non-cancelled booking on the proposal's date
(the proposal otherwise passing datetime validation) fails with
`PatientDayConflict`, the error result carrying no new store. -/
theorem c1_patient_day_uniqueness (st : List Booking) (h : CreateReachable st) :
    patientDayUnique st ∧
    ∀ (now : Nat) (newId p doc : Nat) (dt : Nat) (rs : BookingStatus) (r n : String),
      now < dt → 8 ≤ hourOf dt → hourOf dt < 20 → weekdayOf dt ≠ 4 →
      (∃ b ∈ st, b.patient = p ∧ dateOf b.appointment_datetime = dateOf dt ∧
        b.status ≠ BookingStatus.cancelled) →
      createBooking st now newId p doc dt rs r n
        = Except.error BookingError.patientDayConflict :=
  ⟨reachable_patientDayUnique h,
   fun now newId p doc dt rs r n hfut hh1 hh2 hwd hocc =>
     createBooking_patientDayConflict st now newId p doc dt rs r n hfut hh1 hh2 hwd hocc⟩

/-- The booking created by the witness steps below: patient 10 with
doctor 20 at 10:00 on day 700 (a Monday). -/
def wB1 : Booking :=
  { id := 1, patient := 10, doctor := 20, appointment_datetime := 700 * 1440 + 600,
    status := BookingStatus.pending, reason := "", notes := "" }

set_option maxRecDepth 8000 in
/-- Witness for C1: the singleton store reached by one successful create
is unique, and a second same-day create for patient 10 (different doctor,
different time) fails with `PatientDayConflict` (Scenario B). -/
theorem c1_witness :
    patientDayUnique [wB1] ∧
    createBooking [wB1] (700 * 1440) 2 10 21 (700 * 1440 + 720) BookingStatus.pending "" ""
      = Except.error BookingError.patientDayConflict := by
  have hreach : CreateReachable [wB1] :=
    CreateReachable.step (700 * 1440) 1 10 20 (700 * 1440 + 600) BookingStatus.pending "" ""
      CreateReachable.init rfl
  have h := c1_patient_day_uniqueness [wB1] hreach
  exact ⟨h.1, h.2 (700 * 1440) 2 10 21 (700 * 1440 + 720) BookingStatus.pending "" ""
    (by decide) (by decide) (by decide) (by decide) ⟨wB1, by decide⟩⟩

/-- The doctor-window conflict flag is true exactly when some existing
non-cancelled booking of the doctor lies in the half-open window
`[start - 30, start + 30)`. -/
theorem hasDoctorSlotConflict_iff (st : List Booking) (doc : Nat) (dt : Nat) :
    hasDoctorSlotConflict st doc dt = true ↔
      ∃ b ∈ st, b.doctor = doc ∧ b.status ≠ BookingStatus.cancelled ∧
        dt - 30 ≤ b.appointment_datetime ∧ b.appointment_datetime < dt + 30 := by
  unfold hasDoctorSlotConflict
  constructor
  · intro h
    have hne : doctorConflicts st doc dt ≠ [] := by
      intro hE
      rw [hE] at h
      exact absurd h (by decide)
    obtain ⟨b, hbmem⟩ := List.exists_mem_of_ne_nil _ hne
    have hmem := hbmem
    unfold doctorConflicts at hmem
    obtain ⟨hst, hpred⟩ := List.mem_filter.mp hmem
    refine ⟨b, hst, ?_⟩
    simp only [Bool.and_eq_true, beq_iff_eq, decide_eq_true_eq, Bool.not_eq_true',
      beq_eq_false_iff_ne] at hpred
    exact ⟨hpred.1.1.1, hpred.2, hpred.1.1.2, hpred.1.2⟩
  · rintro ⟨b, hst, h1, h2, h3, h4⟩
    have hmem : b ∈ doctorConflicts st doc dt := by
      unfold doctorConflicts
      refine List.mem_filter.mpr ⟨hst, ?_⟩
      simp only [Bool.and_eq_true, beq_iff_eq, decide_eq_true_eq, Bool.not_eq_true',
        beq_eq_false_iff_ne]
      exact ⟨⟨⟨h1, h3⟩, h4⟩, h2⟩
    rw [List.isEmpty_eq_false.mpr (List.ne_nil_of_mem hmem)]
    rfl

/-- C2: with the datetime validation and the patient-day check passing, a
create fails with `DoctorSlotConflict` exactly when some existing
non-cancelled booking for the same doctor has its datetime in the
asymmetric half-open window `[proposal - 30, proposal + 30)` minutes. -/
theorem c2_doctor_slot_window (st : List Booking) (now : Nat) (newId p doc : Nat)
    (dt : Nat) (rs : BookingStatus) (r n : String)
    (hfut : now < dt) (hh1 : 8 ≤ hourOf dt) (hh2 : hourOf dt < 20) (hwd : weekdayOf dt ≠ 4)
    (hpd : patientBookingsOnDate st p (dateOf dt) = []) :
    createBooking st now newId p doc dt rs r n = Except.error BookingError.doctorSlotConflict
      ↔ ∃ b ∈ st, b.doctor = doc ∧ b.status ≠ BookingStatus.cancelled ∧
          dt - 30 ≤ b.appointment_datetime ∧ b.appointment_datetime < dt + 30 := by
  rw [← hasDoctorSlotConflict_iff]
  unfold createBooking
  rw [if_neg (Nat.not_le.mpr hfut)]
  rw [if_neg (show ¬(decide (hourOf dt < 8) || decide (20 ≤ hourOf dt)) = true by
    rw [hours_cond_eq_false hh1 hh2]
    exact Bool.false_ne_true)]
  rw [if_neg (show ¬((weekdayOf dt == 4) = true) from fun hc => hwd (eq_of_beq hc))]
  rw [if_neg (show ¬((!(patientBookingsOnDate st p (dateOf dt)).isEmpty) = true) by
    rw [hpd]
    simp)]
  cases hC : hasDoctorSlotConflict st doc dt
  · simp [hC]
  · simp [hC]

set_option maxRecDepth 8000 in
/-- Witness for C2, Scenario A: doctor 20 has a booking at 10:00; a
proposal for the same doctor at 10:15 (different patient) fails with
`DoctorSlotConflict`. -/
theorem c2_witness :
    createBooking [wB1] (700 * 1440) 2 11 20 (700 * 1440 + 615) BookingStatus.pending "" ""
      = Except.error BookingError.doctorSlotConflict :=
  (c2_doctor_slot_window [wB1] (700 * 1440) 2 11 20 (700 * 1440 + 615) BookingStatus.pending "" ""
    (by decide) (by decide) (by decide) (by decide) rfl).mpr ⟨wB1, by decide⟩

/-- The generated candidates are exactly the 24 half-hour marks of the
working day, in ascending order. -/
theorem slotCandidates_eq_fullDaySlots (d : Nat) : slotCandidates d = fullDaySlots d := by
  simp only [slotCandidates, fullDaySlots]
  rw [show List.range 12 = [0,1,2,3,4,5,6,7,8,9,10,11] from rfl,
      show List.range 24 = [0,1,2,3,4,5,6,7,8,9,10,11,12,13,14,15,16,17,18,19,20,21,22,23]
        from rfl]
  simp only [List.flatMap_cons, List.flatMap_nil, List.map_cons, List.map_nil,
    List.append_nil, List.cons_append, List.nil_append]

/-- Every candidate slot lies at or after 08:00 of its day. -/
theorem mem_slotCandidates_ge {d t : Nat} (h : t ∈ slotCandidates d) :
    d * 1440 + 480 ≤ t := by
  rw [slotCandidates_eq_fullDaySlots] at h
  unfold fullDaySlots at h
  obtain ⟨i, hi, rfl⟩ := List.mem_map.mp h
  omega

/-- C6: on a strictly future working (non-Friday) date where the doctor
has no non-cancelled booking, the slot listing succeeds with the full day
of `(20 - 8) * (60 / 30) = 24` slots, spaced exactly 30 minutes apart in
ascending order; and in general a candidate is kept iff it does not
exactly equal an existing booking's datetime (not a windowed check) and
is strictly after now. -/
theorem c6_full_day_slots (st : List Booking) (now : Nat) (doc d : Nat)
    (hfut : dateOf now < d) (hwd : weekdayOfDate d ≠ 4)
    (hnone : doctorBookedTimesOnDate st doc d = []) :
    availableSlots st now doc d = Except.ok (fullDaySlots d) ∧
    (fullDaySlots d).length = 24 ∧
    List.Chain' (fun a b => b = a + 30) (fullDaySlots d) ∧
    (∀ st2 res, availableSlots st2 now doc d = Except.ok res →
      ∀ t, t ∈ res ↔ (t ∈ slotCandidates d ∧
        t ∉ doctorBookedTimesOnDate st2 doc d ∧ now < t)) := by
  have hnow : now < d * 1440 := by
    unfold dateOf at hfut
    omega
  have hnpast : ¬ d < dateOf now := by
    unfold dateOf at hfut ⊢
    omega
  refine ⟨?_, ?_, ?_, ?_⟩
  · unfold availableSlots
    rw [if_neg hnpast]
    rw [if_neg (show ¬((weekdayOfDate d == 4) = true) from fun hc => hwd (eq_of_beq hc))]
    simp only [hnone]
    rw [List.filter_eq_self.mpr ?keep]
    case keep =>
      intro t ht
      have hge := mem_slotCandidates_ge ht
      exact decide_eq_true (show now < t by omega)
    rw [slotCandidates_eq_fullDaySlots]
  · simp [fullDaySlots]
  · unfold fullDaySlots
    rw [show List.range 24 = [0,1,2,3,4,5,6,7,8,9,10,11,12,13,14,15,16,17,18,19,20,21,22,23]
      from rfl]
    simp only [List.map_cons, List.map_nil, List.chain'_cons, List.chain'_singleton,
      and_true]
  · intro st2 res hres t
    unfold availableSlots at hres
    rw [if_neg hnpast] at hres
    rw [if_neg (show ¬((weekdayOfDate d == 4) = true) from fun hc => hwd (eq_of_beq hc))] at hres
    obtain rfl := (Except.ok.inj hres).symm
    simp only [List.mem_filter, Bool.and_eq_true, Bool.not_eq_true', decide_eq_true_eq]
    constructor
    · rintro ⟨hc, hcon, hlt⟩
      refine ⟨hc, ?_, hlt⟩
      intro hmem
      have htrue : (doctorBookedTimesOnDate st2 doc d).contains t = true :=
        List.elem_iff.mpr hmem
      rw [htrue] at hcon
      exact Bool.noConfusion hcon
    · rintro ⟨hc, hnot, hlt⟩
      refine ⟨hc, ?_, hlt⟩
      cases hE : (doctorBookedTimesOnDate st2 doc d).contains t
      · rfl
      · exact absurd (List.elem_iff.mp hE) hnot

set_option maxRecDepth 8000 in
/-- Witness for C6: an empty store, clock at day 700, target day 701 (a
Tuesday): the full 24-slot day is returned. -/
theorem c6_witness :
    availableSlots [] (700 * 1440 + 600) 20 701 = Except.ok (fullDaySlots 701) ∧
    (fullDaySlots 701).length = 24 := by
  have h := c6_full_day_slots [] (700 * 1440 + 600) 20 701 (by decide) (by decide) rfl
  exact ⟨h.1, h.2.1⟩

/-- Evaluation of the confirm action once the booking is found. -/
theorem confirmBooking_eq (st : List Booking) (bid : Nat) (b : Booking)
    (hfind : findBooking st bid = some b) :
    confirmBooking st bid =
      if (b.status == BookingStatus.pending) = true
      then saveBooking st { b with status := BookingStatus.confirmed }
      else Except.error BookingError.cannotConfirm := by
  unfold confirmBooking
  rw [hfind]
  dsimp only
  cases hP : (b.status == BookingStatus.pending) <;> rfl

/-- Evaluation of the complete action once the booking is found. -/
theorem completeBooking_eq (st : List Booking) (bid : Nat) (b : Booking)
    (hfind : findBooking st bid = some b) :
    completeBooking st bid =
      if (b.status == BookingStatus.cancelled) = true
      then Except.error BookingError.cannotCompleteCancelled
      else if (b.status == BookingStatus.completed) = true
      then Except.error BookingError.alreadyCompleted
      else saveBooking st { b with status := BookingStatus.completed } := by
  unfold completeBooking
  rw [hfind]

/-- Evaluation of the cancel action once the booking is found. -/
theorem cancelBooking_eq (st : List Booking) (bid : Nat) (b : Booking) (reason : Option String)
    (hfind : findBooking st bid = some b) :
    cancelBooking st bid reason =
      if (b.status == BookingStatus.cancelled) = true
      then Except.error BookingError.alreadyCancelled
      else if (b.status == BookingStatus.completed) = true
      then Except.error BookingError.cannotCancelCompleted
      else saveBooking st
        (if reasonTruthy reason = true
         then { b with status := BookingStatus.cancelled, notes := cancelNotesLabel ++ reason.getD "" }
         else { b with status := BookingStatus.cancelled }) := by
  unfold cancelBooking
  rw [hfind]

/-- C5: the status-machine guards of the confirm and complete endpoints,
for a stored booking whose model-level clean check passes (true in every
store satisfying the patient-day invariant): confirm succeeds exactly
from `pending`; complete succeeds exactly from `pending` or `confirmed`
(direct pending → completed is permitted); terminal states produce the
specific errors; and an error result carries no successor store, so every
failed attempt leaves the store unchanged by construction. -/
theorem c5_status_machine (st : List Booking) (bid : Nat) (b : Booking)
    (hfind : findBooking st bid = some b) (hclean : cleanOk st b = true) :
    ((∃ st', confirmBooking st bid = Except.ok st') ↔ b.status = BookingStatus.pending) ∧
    ((∃ st', completeBooking st bid = Except.ok st') ↔
      (b.status = BookingStatus.pending ∨ b.status = BookingStatus.confirmed)) ∧
    (b.status ≠ BookingStatus.pending →
      confirmBooking st bid = Except.error BookingError.cannotConfirm) ∧
    (b.status = BookingStatus.cancelled →
      completeBooking st bid = Except.error BookingError.cannotCompleteCancelled) ∧
    (b.status = BookingStatus.completed →
      completeBooking st bid = Except.error BookingError.alreadyCompleted) := by
  have hcleanC : ∀ s : BookingStatus, cleanOk st { b with status := s } = true := by
    intro s
    rw [cleanOk_congr st { b with status := s } b rfl rfl rfl]
    exact hclean
  refine ⟨?_, ?_, ?_, ?_, ?_⟩
  · rw [confirmBooking_eq st bid b hfind]
    cases hb : b.status
    case pending =>
      rw [if_pos (show (BookingStatus.pending == BookingStatus.pending) = true from rfl)]
      exact iff_of_true ⟨_, saveBooking_ok_iff.mpr ⟨hcleanC _, rfl⟩⟩ rfl
    case confirmed =>
      rw [if_neg (by decide)]
      exact iff_of_false (fun h => by obtain ⟨st', hst'⟩ := h; simp at hst') (by decide)
    case completed =>
      rw [if_neg (by decide)]
      exact iff_of_false (fun h => by obtain ⟨st', hst'⟩ := h; simp at hst') (by decide)
    case cancelled =>
      rw [if_neg (by decide)]
      exact iff_of_false (fun h => by obtain ⟨st', hst'⟩ := h; simp at hst') (by decide)
  · rw [completeBooking_eq st bid b hfind]
    cases hb : b.status
    case pending =>
      rw [if_neg (by decide), if_neg (by decide)]
      exact iff_of_true ⟨_, saveBooking_ok_iff.mpr ⟨hcleanC _, rfl⟩⟩ (Or.inl rfl)
    case confirmed =>
      rw [if_neg (by decide), if_neg (by decide)]
      exact iff_of_true ⟨_, saveBooking_ok_iff.mpr ⟨hcleanC _, rfl⟩⟩ (Or.inr rfl)
    case completed =>
      rw [if_neg (by decide), if_pos (by decide)]
      exact iff_of_false (fun h => by obtain ⟨st', hst'⟩ := h; simp at hst') (by decide)
    case cancelled =>
      rw [if_pos (by decide)]
      exact iff_of_false (fun h => by obtain ⟨st', hst'⟩ := h; simp at hst') (by decide)
  · intro hne
    rw [confirmBooking_eq st bid b hfind,
        if_neg (show ¬((b.status == BookingStatus.pending) = true) from
          fun hc => hne (eq_of_beq hc))]
  · intro hcanc
    rw [completeBooking_eq st bid b hfind,
        if_pos (show (b.status == BookingStatus.cancelled) = true by rw [hcanc]; rfl)]
  · intro hdone
    rw [completeBooking_eq st bid b hfind,
        if_neg (show ¬((b.status == BookingStatus.cancelled) = true) by rw [hdone]; decide),
        if_pos (show (b.status == BookingStatus.completed) = true by rw [hdone]; rfl)]

/-- A cancelled copy of the witness booking (as produced by a successful
patient cancel of the pending booking: Scenario D's first step). -/
def wBCancelled : Booking :=
  { id := 1, patient := 10, doctor := 20, appointment_datetime := 700 * 1440 + 600,
    status := BookingStatus.cancelled, reason := "", notes := "" }

set_option maxRecDepth 8000 in
/-- Witness for C5: confirming the concrete pending booking succeeds,
completing it succeeds (direct pending → completed), and confirming the
cancelled copy fails with the terminal-state error (Scenario D). -/
theorem c5_witness :
    (∃ st', confirmBooking [wB1] 1 = Except.ok st') ∧
    (∃ st', completeBooking [wB1] 1 = Except.ok st') ∧
    confirmBooking [wBCancelled] 1 = Except.error BookingError.cannotConfirm := by
  have h1 := c5_status_machine [wB1] 1 wB1 rfl rfl
  have h2 := c5_status_machine [wBCancelled] 1 wBCancelled rfl rfl
  exact ⟨h1.1.mpr rfl, h1.2.1.mpr (Or.inl rfl), h2.2.2.1 (by decide)⟩

/-- A successful cancel with a falsy (absent or blank) reason replaces
the stored row by a copy whose only changed field is the status. -/
theorem cancelBooking_ok_blank {st : List Booking} {bid : Nat} {b : Booking}
    {reason : Option String} {st' : List Booking}
    (hfind : findBooking st bid = some b) (hblank : reasonTruthy reason = false)
    (hok : cancelBooking st bid reason = Except.ok st') :
    st' = st.map (fun e => if e.id == b.id
      then { b with status := BookingStatus.cancelled } else e) := by
  rw [cancelBooking_eq st bid b reason hfind] at hok
  rw [hblank] at hok
  rw [if_neg (show ¬(false = true) from Bool.false_ne_true)] at hok
  split_ifs at hok with h1 h2
  exact (saveBooking_ok_iff.mp hok).2

/-- A successful cancel with a non-blank reason replaces the stored row
by a copy whose status is cancelled and whose notes are exactly the
cancel prefix followed by the reason. -/
theorem cancelBooking_ok_nonblank {st : List Booking} {bid : Nat} {b : Booking}
    {r : String} {st' : List Booking}
    (hfind : findBooking st bid = some b) (hr : r ≠ "")
    (hok : cancelBooking st bid (some r) = Except.ok st') :
    st' = st.map (fun e => if e.id == b.id
      then { b with status := BookingStatus.cancelled, notes := cancelNotesLabel ++ r }
      else e) := by
  have htrue : reasonTruthy (some r) = true := by
    show (!(r == "")) = true
    rw [beq_eq_false_iff_ne.mpr hr]
    rfl
  rw [cancelBooking_eq st bid b (some r) hfind] at hok
  rw [htrue] at hok
  rw [if_pos (show (true = true) from rfl)] at hok
  split_ifs at hok with h1 h2
  exact (saveBooking_ok_iff.mp hok).2

/-- C10: frame property of cancel: a successful cancel with no reason or
a blank reason replaces only the booking's status with `cancelled`,
leaving notes and every other stored field of every booking unchanged;
only a non-blank reason writes notes (and then writes exactly the prefix
plus the reason). -/
theorem c10_cancel_frame (st : List Booking) (bid : Nat) (b : Booking)
    (hfind : findBooking st bid = some b) :
    (∀ reason st', (reason = none ∨ reason = some "") →
      cancelBooking st bid reason = Except.ok st' →
      st' = st.map (fun e => if e.id == b.id
        then { b with status := BookingStatus.cancelled } else e)) ∧
    (∀ r st', r ≠ "" → cancelBooking st bid (some r) = Except.ok st' →
      st' = st.map (fun e => if e.id == b.id
        then { b with status := BookingStatus.cancelled, notes := cancelNotesLabel ++ r }
        else e)) := by
  constructor
  · rintro reason st' hblank hok
    have hfalse : reasonTruthy reason = false := by
      rcases hblank with rfl | rfl <;> rfl
    exact cancelBooking_ok_blank hfind hfalse hok
  · rintro r st' hr hok
    exact cancelBooking_ok_nonblank hfind hr hok

/-- The booking used by the C10 witness: pending, with pre-existing notes. -/
def wBNotes : Booking :=
  { id := 1, patient := 10, doctor := 20, appointment_datetime := 700 * 1440 + 600,
    status := BookingStatus.pending, reason := "r0", notes := "keep" }

set_option maxRecDepth 8000 in
/-- Witness for C10: cancelling the concrete pending booking with a blank
reason yields exactly the same booking with only its status changed (its
notes "keep" survive). -/
theorem c10_witness :
    ([{ wBNotes with status := BookingStatus.cancelled }] : List Booking)
      = [wBNotes].map (fun e => if e.id == wBNotes.id
          then { wBNotes with status := BookingStatus.cancelled } else e) :=
  (c10_cancel_frame [wBNotes] 1 wBNotes rfl).1 (some "")
    [{ wBNotes with status := BookingStatus.cancelled }] (Or.inr rfl) rfl

set_option maxRecDepth 8000 in
/-- C4 counterexample: cancelling (with reason "R") a booking whose notes
field holds "zzz" succeeds, and the resulting notes are exactly the
cancel prefix followed by "R": the prior notes text does not occur in the
result even as a substring, so the reason is not appended to the prior
notes — it replaces them. -/
theorem c4_counterexample :
    cancelBooking [wBNotes] 1 (some "R")
      = Except.ok
          [{ wBNotes with status := BookingStatus.cancelled, notes := cancelNotesLabel ++ "R" }] ∧
    wBNotes.notes ≠ "" ∧
    ¬ wBNotes.notes.data <:+: (cancelNotesLabel ++ "R").data := by
  refine ⟨rfl, by decide, by decide⟩

/-- C4 amended: on cancellation with a non-blank reason, the booking's
notes are overwritten with the fixed prefix followed by the reason; the
prior notes content is discarded (plain assignment, not append). -/
theorem c4_amended_cancel_overwrites (st : List Booking) (bid : Nat) (b : Booking)
    (r : String) (st' : List Booking)
    (hfind : findBooking st bid = some b) (hr : r ≠ "")
    (hok : cancelBooking st bid (some r) = Except.ok st') :
    st' = st.map (fun e => if e.id == b.id
      then { b with status := BookingStatus.cancelled, notes := cancelNotesLabel ++ r }
      else e) :=
  cancelBooking_ok_nonblank hfind hr hok

set_option maxRecDepth 8000 in
/-- Witness for the amended C4 at the concrete input of the
counterexample. -/
theorem c4_amended_witness :
    ([{ wBNotes with status := BookingStatus.cancelled, notes := cancelNotesLabel ++ "R" }]
        : List Booking)
      = [wBNotes].map (fun e => if e.id == wBNotes.id
          then { wBNotes with status := BookingStatus.cancelled, notes := cancelNotesLabel ++ "R" }
          else e) :=
  c4_amended_cancel_overwrites [wBNotes] 1 wBNotes "R"
    [{ wBNotes with status := BookingStatus.cancelled, notes := cancelNotesLabel ++ "R" }]
    rfl (by decide) rfl

/-- Elimination of a successful role-dispatched write: the stored row is
replaced by one with the same pk, patient and doctor; the status is
unchanged when no status value was supplied; only the staff fall-through
branch can write the datetime. -/
theorem applyRoleUpdate_ok_elim {st : List Booking} {role : Role} {b : Booking}
    {data : UpdateData} {st' : List Booking}
    (hok : applyRoleUpdate st role b data = Except.ok st') :
    ∃ b' : Booking, b'.id = b.id ∧ b'.patient = b.patient ∧ b'.doctor = b.doctor ∧
      (data.status = none → b'.status = b.status) ∧
      (role ≠ Role.staff → b'.appointment_datetime = b.appointment_datetime) ∧
      st' = st.map (fun e => if e.id == b.id then b' else e) := by
  unfold applyRoleUpdate at hok
  cases role with
  | patient =>
    dsimp only at hok
    split_ifs at hok with h1
    exact ⟨{ b with reason := data.reason.getD b.reason }, rfl, rfl, rfl, fun _ => rfl,
      fun _ => rfl, (saveBooking_ok_iff.mp hok).2⟩
  | doctor =>
    dsimp only at hok
    refine ⟨{ b with status := data.status.getD b.status, notes := data.notes.getD b.notes },
      rfl, rfl, rfl, ?_, fun _ => rfl, (saveBooking_ok_iff.mp hok).2⟩
    intro hnone
    rw [hnone]
    rfl
  | staff =>
    dsimp only at hok
    refine ⟨{ b with appointment_datetime := data.appointment_datetime.getD b.appointment_datetime, status := data.status.getD b.status, reason := data.reason.getD b.reason, notes := data.notes.getD b.notes }, rfl, rfl, rfl, ?_, ?_, (saveBooking_ok_iff.mp hok).2⟩
    · intro hnone
      rw [hnone]
      rfl
    · intro hne
      exact absurd rfl hne

/-- Elimination of a successful update call: the status validator forbids
any supplied status on a terminal instance; without a supplied status the
stored status is unchanged; patient and doctor refs are never writable;
only staff can write the datetime. -/
theorem updateBooking_ok_elim {st : List Booking} {role : Role} {bid : Nat}
    {data : UpdateData} {now : Nat} {st' : List Booking} {b : Booking}
    (hfind : findBooking st bid = some b)
    (hok : updateBooking st role bid data now = Except.ok st') :
    ∃ b' : Booking, b'.id = b.id ∧ b'.patient = b.patient ∧ b'.doctor = b.doctor ∧
      ((b.status = BookingStatus.cancelled ∨ b.status = BookingStatus.completed) →
        data.status = none) ∧
      (data.status = none → b'.status = b.status) ∧
      (role ≠ Role.staff → b'.appointment_datetime = b.appointment_datetime) ∧
      st' = st.map (fun e => if e.id == b.id then b' else e) := by
  unfold updateBooking at hok
  rw [hfind] at hok
  dsimp only at hok
  have hok2 : updateValidated st role b data = Except.ok st' := by
    cases hdt : data.appointment_datetime with
    | none =>
      rw [hdt] at hok
      exact hok
    | some dt =>
      rw [hdt] at hok
      dsimp only at hok
      cases hv : validAppointmentDatetime now dt with
      | none =>
        rw [hv] at hok
        exact hok
      | some e =>
        rw [hv] at hok
        exact absurd hok (by simp)
  clear hok
  unfold updateValidated at hok2
  cases hs : data.status with
  | some s =>
    rw [hs] at hok2
    dsimp only at hok2
    split_ifs at hok2 with h1 h2
    obtain ⟨b', hid, hp, hd, hsn, hdtp, hst⟩ := applyRoleUpdate_ok_elim hok2
    refine ⟨b', hid, hp, hd, ?_, ?_, hdtp, hst⟩
    · intro ht
      exfalso
      rcases ht with ht | ht
      · exact h1 (by rw [ht]; rfl)
      · exact h2 (by rw [ht]; rfl)
    · intro hnone
      exact Option.noConfusion hnone
  | none =>
    rw [hs] at hok2
    dsimp only at hok2
    obtain ⟨b', hid, hp, hd, hsn, hdtp, hst⟩ := applyRoleUpdate_ok_elim hok2
    exact ⟨b', hid, hp, hd, fun _ => rfl, fun _ => hsn hs, hdtp, hst⟩

/-- A completed booking used to refute terminal immutability of the
datetime field. -/
def wBDone : Booking :=
  { id := 1, patient := 10, doctor := 20, appointment_datetime := 700 * 1440 + 600,
    status := BookingStatus.completed, reason := "r0", notes := "n0" }

set_option maxRecDepth 8000 in
/-- C3 counterexample: a staff update of the completed booking `wBDone`
that supplies only a new (valid, future, working-hours) datetime and no
status succeeds, and the stored `appointment_datetime` changes — so a
terminal booking's `scheduledAt` is not immutable under `updateFields`. -/
theorem c3_counterexample :
    updateBooking [wBDone] Role.staff 1
      { appointment_datetime := some (701 * 1440 + 600), status := none,
        reason := none, notes := none } (700 * 1440)
      = Except.ok [{ wBDone with appointment_datetime := 701 * 1440 + 600 }] ∧
    (701 * 1440 + 600 : Nat) ≠ wBDone.appointment_datetime := by
  exact ⟨rfl, by decide⟩

/-- C3 amended: for a stored booking in a terminal state (completed or
cancelled): the cancel, confirm and complete actions always fail; an
update supplying any status value always fails; and every successful
update keeps the pk, the patient and doctor refs, and the status
unchanged, and keeps the datetime unchanged for patient and doctor
actors — but a staff update that omits the status field may still change
the terminal booking's datetime (see the counterexample). -/
theorem c3_amended_terminal_immutability (st : List Booking) (bid : Nat) (b : Booking)
    (hfind : findBooking st bid = some b)
    (hterm : b.status = BookingStatus.completed ∨ b.status = BookingStatus.cancelled) :
    (∀ reason st', cancelBooking st bid reason ≠ Except.ok st') ∧
    (∀ st', confirmBooking st bid ≠ Except.ok st') ∧
    (∀ st', completeBooking st bid ≠ Except.ok st') ∧
    (∀ role data now st', data.status ≠ none →
      updateBooking st role bid data now ≠ Except.ok st') ∧
    (∀ role data now st', updateBooking st role bid data now = Except.ok st' →
      ∃ b' : Booking, st' = st.map (fun e => if e.id == b.id then b' else e) ∧
        b'.patient = b.patient ∧ b'.doctor = b.doctor ∧ b'.status = b.status ∧
        (role ≠ Role.staff → b'.appointment_datetime = b.appointment_datetime)) := by
  refine ⟨?_, ?_, ?_, ?_, ?_⟩
  · intro reason st' hok
    rw [cancelBooking_eq st bid b reason hfind] at hok
    rcases hterm with ht | ht
    · rw [if_neg (show ¬((b.status == BookingStatus.cancelled) = true) by rw [ht]; decide),
          if_pos (show (b.status == BookingStatus.completed) = true by rw [ht]; rfl)] at hok
      exact absurd hok (by simp)
    · rw [if_pos (show (b.status == BookingStatus.cancelled) = true by rw [ht]; rfl)] at hok
      exact absurd hok (by simp)
  · intro st' hok
    rw [confirmBooking_eq st bid b hfind,
        if_neg (show ¬((b.status == BookingStatus.pending) = true) by
          rcases hterm with ht | ht <;> rw [ht] <;> decide)] at hok
    exact absurd hok (by simp)
  · intro st' hok
    rw [completeBooking_eq st bid b hfind] at hok
    rcases hterm with ht | ht
    · rw [if_neg (show ¬((b.status == BookingStatus.cancelled) = true) by rw [ht]; decide),
          if_pos (show (b.status == BookingStatus.completed) = true by rw [ht]; rfl)] at hok
      exact absurd hok (by simp)
    · rw [if_pos (show (b.status == BookingStatus.cancelled) = true by rw [ht]; rfl)] at hok
      exact absurd hok (by simp)
  · intro role data now st' hsome hok
    obtain ⟨b', -, -, -, hnone, -, -, -⟩ := updateBooking_ok_elim hfind hok
    exact hsome (hnone hterm.symm)
  · intro role data now st' hok
    obtain ⟨b', -, hp, hd, hnone, hsn, hdtp, hst⟩ := updateBooking_ok_elim hfind hok
    exact ⟨b', hst, hp, hd, hsn (hnone hterm.symm), hdtp⟩

set_option maxRecDepth 8000 in
/-- Witness for the amended C3 at the concrete completed booking: no
confirm of it can succeed. -/
theorem c3_amended_witness :
    confirmBooking [wBDone] 1 ≠ Except.ok [wBDone] :=
  (c3_amended_terminal_immutability [wBDone] 1 wBDone rfl (Or.inl rfl)).2.1 [wBDone]

end DentalSystem
